import Mathlib

/-!
# Verification of the job-lifecycle controller and the telemetry channel

This development embeds the two core components of the repository:

* the job controller `useDiagnosticJob` (submit → poll → terminal state machine,
  with a chained `setTimeout`-based polling loop), and
* the telemetry channel `TelemetryWebSocket` (persistent reconnecting WebSocket
  with listener fan-out) together with its consumer `useWebSocket`.

Both are event-driven, single-threaded pieces of code.  We model each as an
explicit state machine: the state records the component's fields together with
the surrounding event-loop resources it owns (armed timers, in-flight HTTP
requests, sockets), and a `step` function executes one event-loop callback
(a timer firing, a promise resolving, a socket event, a user-facing call).
Invalid events (a timer that is not armed, a request that is not in flight)
yield `none`.  A trace is a list of events folded through `step`; the
environment (server responses, event interleavings) is adversarial.

JavaScript details that matter and are modelled faithfully:

* `setTimeout` returns a fresh positive integer handle; `clearTimeout` of a
  stale (already fired or cleared) handle is a no-op.  Truthiness tests such as
  `if (this.reconnectTimeout)` are modelled as `Option.isSome`, ids starting
  at 1.
* React state setters (`setJob`, `setError`, `setIsLoading`) are no-ops after
  the component unmounted; refs (`pollTimeout.current`) remain mutable.
* An `async` function runs synchronously up to its first `await`; the
  continuation after an `await` runs when the corresponding promise settles.
-/

namespace Diagnostic

/-- Job status union from `frontend/src/types/diagnostic.ts`. -/
inductive JobStatus where
  | pending
  | processing
  | completed
  | failed
deriving DecidableEq, Repr

/-- Structure `JobResponse` from `frontend/src/types/diagnostic.ts`.  The
`DiagnosticResult` payload is abstracted as a type parameter `R`: no claim
about the controller depends on the fields of the analysis result, only on
its presence. -/
structure JobResponse (R : Type) where
  job_id : String
  status : JobStatus
  result : Option R
deriving DecidableEq, Repr

/-- A pending `setTimeout` armed by `pollStatus`: its handle, the job id
captured by the scheduled closure `() => pollStatus(jobId)`, and the delay
passed to `setTimeout` (1000 in the source). -/
structure PollTimer where
  id : Nat
  jobId : String
  delayMs : Nat
deriving DecidableEq, Repr

/-- An in-flight `getJobStatus(jobId)` request awaited inside `pollStatus`. -/
structure PollReq where
  id : Nat
  jobId : String
deriving DecidableEq, Repr

/-- The state of one `useDiagnosticJob` controller instance together with the
event-loop resources it owns.  `job`, `error`, `isLoading` are the React state
cells; `mounted` tracks whether the component is mounted (setters are no-ops
afterwards); `pollRef` is the `pollTimeout` ref (it may hold a stale handle of
a timer that already fired or was cleared, exactly as in the source);
`timers` are the armed poll timers; `inflightPolls` / `inflightSubmits` are
the outstanding `getJobStatus` / `submitJob` requests; `next` allocates fresh
handles. -/
structure World (R : Type) where
  job : Option (JobResponse R)
  error : Option String
  isLoading : Bool
  mounted : Bool
  pollRef : Option Nat
  timers : List PollTimer
  inflightPolls : List PollReq
  inflightSubmits : List Nat
  next : Nat
deriving Repr

variable {R : Type}

/-- Setter `setJob`: a React state setter, a no-op once the component unmounted. -/
def setJob (w : World R) (v : Option (JobResponse R)) : World R :=
  if w.mounted then { w with job := v } else w

/-- Setter `setError`: a React state setter, a no-op once the component unmounted. -/
def setError (w : World R) (v : Option String) : World R :=
  if w.mounted then { w with error := v } else w

/-- Setter `setIsLoading`: a React state setter, a no-op once unmounted. -/
def setIsLoading (w : World R) (v : Bool) : World R :=
  if w.mounted then { w with isLoading := v } else w

/-- Function `stopPolling` from the source: if `pollTimeout.current` is set,
`clearTimeout` it (disarm that handle, a no-op when the handle is stale) and
null the ref. -/
def stopPolling (w : World R) : World R :=
  match w.pollRef with
  | some id => { w with timers := w.timers.filter (fun t => !(t.id == id)), pollRef := none }
  | none => w

/-- The synchronous prefix of `pollStatus(jobId)`: it immediately awaits
`getJobStatus(jobId)`, i.e. issues the status request.  The continuation after
the `await` is run by the `pollOk` / `pollErr` events. -/
def startStatusRequest (w : World R) (jobId : String) : World R :=
  { w with inflightPolls := ⟨w.next, jobId⟩ :: w.inflightPolls, next := w.next + 1 }

/-- The test `jobStatus.status === 'completed' || jobStatus.status === 'failed'`. -/
def isTerminal : JobStatus → Bool
  | .completed => true
  | .failed => true
  | _ => false

/-- Event-loop events for the controller:
* `submitStart`: the user calls `submit(file)`; runs up to `await submitJob`.
* `submitOk reqId resp` / `submitErr reqId msg`: that request settles.
* `pollOk reqId resp` / `pollErr reqId msg`: an in-flight `getJobStatus`
  settles; the environment (server) chooses the response.
* `timerFire id`: an armed poll timer fires, running `() => pollStatus(jobId)`.
* `reset`: the user calls `reset()`.
* `unmount`: the owning component unmounts; the `useEffect` cleanup runs
  `stopPolling()`. -/
inductive Ev (R : Type) where
  | submitStart
  | submitOk (reqId : Nat) (resp : JobResponse R)
  | submitErr (reqId : Nat) (msg : String)
  | pollOk (reqId : Nat) (resp : JobResponse R)
  | pollErr (reqId : Nat) (msg : String)
  | timerFire (id : Nat)
  | reset
  | unmount

/-- One event-loop step of the controller, translated line by line from
`useDiagnosticJob` (src/unnamed/part_002).  Returns `none` for events that
cannot occur (firing a timer that is not armed, settling a request that is
not in flight). -/
def step (w : World R) : Ev R → Option (World R)
  | .submitStart =>
      -- submit: setIsLoading(true); setError(null); setJob(null); await submitJob(file)
      let w1 := setIsLoading w true
      let w2 := setError w1 none
      let w3 := setJob w2 none
      some { w3 with inflightSubmits := w3.next :: w3.inflightSubmits, next := w3.next + 1 }
  | .submitOk reqId resp =>
      if w.inflightSubmits.contains reqId then
        let w1 := { w with inflightSubmits := w.inflightSubmits.filter (fun i => !(i == reqId)) }
        -- setJob(response); pollStatus(response.job_id)
        let w2 := setJob w1 (some resp)
        some (startStatusRequest w2 resp.job_id)
      else none
  | .submitErr reqId msg =>
      if w.inflightSubmits.contains reqId then
        let w1 := { w with inflightSubmits := w.inflightSubmits.filter (fun i => !(i == reqId)) }
        -- setError(err.message || ...); setIsLoading(false)
        let w2 := setError w1 (some msg)
        some (setIsLoading w2 false)
      else none
  | .pollOk reqId resp =>
      match w.inflightPolls.find? (fun p => p.id == reqId) with
      | some req =>
          let w1 := { w with inflightPolls := w.inflightPolls.filter (fun p => !(p.id == reqId)) }
          -- setJob(jobStatus)
          let w2 := setJob w1 (some resp)
          if isTerminal resp.status then
            -- stopPolling(); setIsLoading(false)
            some (setIsLoading (stopPolling w2) false)
          else
            -- pollTimeout.current = setTimeout(() => pollStatus(jobId), 1000)
            some { w2 with timers := ⟨w2.next, req.jobId, 1000⟩ :: w2.timers,
                           pollRef := some w2.next, next := w2.next + 1 }
      | none => none
  | .pollErr reqId msg =>
      match w.inflightPolls.find? (fun p => p.id == reqId) with
      | some _ =>
          let w1 := { w with inflightPolls := w.inflightPolls.filter (fun p => !(p.id == reqId)) }
          -- setError(err.message || ...); stopPolling(); setIsLoading(false)
          let w2 := setError w1 (some msg)
          some (setIsLoading (stopPolling w2) false)
      | none => none
  | .timerFire id =>
      match w.timers.find? (fun t => t.id == id) with
      | some t =>
          -- the timer is consumed; the callback runs pollStatus(jobId)
          let w1 := { w with timers := w.timers.filter (fun u => !(u.id == id)) }
          some (startStatusRequest w1 t.jobId)
      | none => none
  | .reset =>
      -- stopPolling(); setJob(null); setError(null); setIsLoading(false)
      let w1 := stopPolling w
      let w2 := setJob w1 none
      let w3 := setError w2 none
      some (setIsLoading w3 false)
  | .unmount =>
      some (stopPolling { w with mounted := false })

/-- Initial state of a freshly mounted `useDiagnosticJob` instance. -/
def initWorld : World R :=
  { job := none, error := none, isLoading := false, mounted := true,
    pollRef := none, timers := [], inflightPolls := [], inflightSubmits := [],
    next := 1 }

/-- Execute a trace of event-loop events; `none` if some event was invalid. -/
def run (w : World R) : List (Ev R) → Option (World R)
  | [] => some w
  | e :: rest =>
      match step w e with
      | some w1 => run w1 rest
      | none => none

/-- The derived value returned to the consumer: `result: job?.result || null`. -/
def jobResult (w : World R) : Option R :=
  w.job.bind (fun j => j.result)

/-- Server responses used in the concrete scenarios. -/
def pendingResp : JobResponse Unit := ⟨"abc", .pending, none⟩

def processingResp : JobResponse Unit := ⟨"abc", .processing, none⟩

def completedResp : JobResponse Unit := ⟨"abc", .completed, some ()⟩

/-- The scenario trace of claim C6: `submit` resolves with a pending job
(which immediately issues the first status request), the first poll returns
`processing` (arming the 1000 ms timer), the timer fires (issuing the second
status request), and the second poll returns `completed` with a result. -/
def c6Trace : List (Ev Unit) :=
  [.submitStart, .submitOk 1 pendingResp, .pollOk 2 processingResp,
   .timerFire 3, .pollOk 4 completedResp]

/-- C6: in the scenario submit→pending, first poll→processing, second poll
(scheduled by the 1000 ms timer)→completed-with-result, the controller ends
with `isLoading = false`, `error = null`, `result` populated from the
completed job, and zero poll timers pending (and no request in flight). -/
theorem c6_scenario :
    (run initWorld c6Trace).map
      (fun w => (w.isLoading, w.error, jobResult w, w.timers, w.inflightPolls)) =
    some (false, none, some (), [], []) := rfl

/-- Trace for the C1 counterexample: submit resolves (issuing a status
request); `reset()` is called while that request is still in flight; the
request then resolves with a non-terminal status. -/
def c1Trace : List (Ev Unit) :=
  [.submitStart, .submitOk 1 pendingResp, .reset, .pollOk 2 processingResp]

/-- C1 counterexample: a status request already in flight at the moment of
cancellation still applies its result after `reset()`: the final state has
`job = some processingResp` (the poll result was applied after cancellation)
and one poll timer armed again (polling resumed), refuting the claim that no
poll result is applied to the controller state after cancellation. -/
theorem c1_counterexample :
    (run initWorld c1Trace).map (fun w => (w.job, w.timers.length, w.isLoading)) =
    some (some processingResp, 1, false) := rfl

/-- Server responses for the C3 counterexample. -/
def oldPendingResp : JobResponse Unit := ⟨"old", .pending, none⟩

def oldProcessingResp : JobResponse Unit := ⟨"old", .processing, none⟩

def newPendingResp : JobResponse Unit := ⟨"new", .pending, none⟩

/-- Prefix of the C3 trace: a first job "old" is submitted and reaches the
looping state (timer 3 armed for "old"), then a second submission starts and
resolves with job "new". -/
def c3TracePrefix : List (Ev Unit) :=
  [.submitStart, .submitOk 1 oldPendingResp, .pollOk 2 oldProcessingResp,
   .submitStart, .submitOk 4 newPendingResp]

/-- Full C3 trace: after the new submission, the old job's timer 3 fires. -/
def c3Trace : List (Ev Unit) := c3TracePrefix ++ [.timerFire 3]

/-- C3 counterexample: after the new submission has started (and even
resolved), the previous job's poll timer is still armed, and when it fires a
further status request for the previous job "old" is issued — refuting the
claim that starting a new submission discards the previous job's polling. -/
theorem c3_counterexample :
    (run initWorld c3TracePrefix).map (fun w => w.timers) =
      some [⟨3, "old", 1000⟩] ∧
    (run initWorld c3Trace).map (fun w => w.inflightPolls) =
      some [⟨6, "old"⟩, ⟨5, "new"⟩] :=
  ⟨rfl, rfl⟩

/-! ## Projection lemmas for the state-setter helpers -/

@[simp] theorem setJob_timers (w : World R) (v : Option (JobResponse R)) :
    (setJob w v).timers = w.timers := by
  unfold setJob; split <;> rfl

@[simp] theorem setJob_next (w : World R) (v : Option (JobResponse R)) :
    (setJob w v).next = w.next := by
  unfold setJob; split <;> rfl

@[simp] theorem setJob_inflightPolls (w : World R) (v : Option (JobResponse R)) :
    (setJob w v).inflightPolls = w.inflightPolls := by
  unfold setJob; split <;> rfl

@[simp] theorem setJob_pollRef (w : World R) (v : Option (JobResponse R)) :
    (setJob w v).pollRef = w.pollRef := by
  unfold setJob; split <;> rfl

@[simp] theorem setError_timers (w : World R) (v : Option String) :
    (setError w v).timers = w.timers := by
  unfold setError; split <;> rfl

@[simp] theorem setError_next (w : World R) (v : Option String) :
    (setError w v).next = w.next := by
  unfold setError; split <;> rfl

@[simp] theorem setError_inflightPolls (w : World R) (v : Option String) :
    (setError w v).inflightPolls = w.inflightPolls := by
  unfold setError; split <;> rfl

@[simp] theorem setError_pollRef (w : World R) (v : Option String) :
    (setError w v).pollRef = w.pollRef := by
  unfold setError; split <;> rfl

@[simp] theorem setIsLoading_timers (w : World R) (v : Bool) :
    (setIsLoading w v).timers = w.timers := by
  unfold setIsLoading; split <;> rfl

@[simp] theorem setIsLoading_next (w : World R) (v : Bool) :
    (setIsLoading w v).next = w.next := by
  unfold setIsLoading; split <;> rfl

@[simp] theorem setIsLoading_inflightPolls (w : World R) (v : Bool) :
    (setIsLoading w v).inflightPolls = w.inflightPolls := by
  unfold setIsLoading; split <;> rfl

@[simp] theorem setIsLoading_pollRef (w : World R) (v : Bool) :
    (setIsLoading w v).pollRef = w.pollRef := by
  unfold setIsLoading; split <;> rfl

@[simp] theorem startStatusRequest_timers (w : World R) (j : String) :
    (startStatusRequest w j).timers = w.timers := rfl

@[simp] theorem startStatusRequest_next (w : World R) (j : String) :
    (startStatusRequest w j).next = w.next + 1 := rfl

@[simp] theorem stopPolling_next (w : World R) :
    (stopPolling w).next = w.next := by
  unfold stopPolling; split <;> rfl

theorem stopPolling_timers_sub {w : World R} {t : PollTimer}
    (h : t ∈ (stopPolling w).timers) : t ∈ w.timers := by
  unfold stopPolling at h
  split at h
  · exact (List.mem_filter.1 h).1
  · exact h

/-! ## C3 (amended): a new submission never disarms any poll timer -/

/-- C3 (amended): starting a new submission and having it resolve leaves the
set of armed poll timers exactly as it was — in particular, a previous job's
pending poll timer remains armed after the new submission, and (as
`c3_counterexample` shows concretely) firing it issues a further status
request for the previous job.  The source `submit` never calls
`stopPolling`. -/
theorem c3_submit_preserves_timers (w w₁ w₂ : World R) (reqId : Nat)
    (resp : JobResponse R)
    (h1 : step w Ev.submitStart = some w₁)
    (h2 : step w₁ (Ev.submitOk reqId resp) = some w₂) :
    w₂.timers = w.timers := by
  simp only [step] at h1
  injection h1 with h1
  simp only [step] at h2
  split at h2
  · injection h2 with h2
    subst h2
    subst h1
    simp [startStatusRequest]
  · exact Option.noConfusion h2

/-- Witness state after `submit(file)` is called on a fresh controller. -/
def c3wA : World Unit :=
  { job := none, error := none, isLoading := true, mounted := true,
    pollRef := none, timers := [], inflightPolls := [], inflightSubmits := [1],
    next := 2 }

/-- Witness state after that submission resolves with a pending job. -/
def c3wB : World Unit :=
  { job := some pendingResp, error := none, isLoading := true, mounted := true,
    pollRef := none, timers := [], inflightPolls := [⟨2, "abc"⟩],
    inflightSubmits := [], next := 3 }

/-- Witness for `c3_submit_preserves_timers` at a concrete submission. -/
theorem c3_witness : c3wB.timers = (initWorld (R := Unit)).timers :=
  c3_submit_preserves_timers initWorld c3wA c3wB 1 pendingResp rfl rfl

/-! ## C1 (amended): a cancelled poll timer can never fire again -/

/-- The timer handle `r` is disarmed and stale: no armed timer carries it, and
it is older than the allocation counter (so it can never be re-armed). -/
def timerDead (w : World R) (r : Nat) : Prop :=
  (∀ t ∈ w.timers, t.id ≠ r) ∧ r < w.next

/-- Every controller step either keeps an armed timer or arms a fresh one
whose handle is the current allocation counter and whose delay is the 1000 ms
literal passed to `setTimeout` in `pollStatus`. -/
theorem step_timers_sub {w w' : World R} {e : Ev R} (h : step w e = some w') :
    ∀ t ∈ w'.timers, t ∈ w.timers ∨ (t.id = w.next ∧ t.delayMs = 1000) := by
  cases e with
  | submitStart =>
      simp only [step] at h
      injection h with h
      subst h
      intro t ht
      simp at ht
      exact Or.inl ht
  | submitOk reqId resp =>
      simp only [step] at h
      split at h
      · injection h with h
        subst h
        intro t ht
        simp at ht
        exact Or.inl ht
      · exact Option.noConfusion h
  | submitErr reqId msg =>
      simp only [step] at h
      split at h
      · injection h with h
        subst h
        intro t ht
        simp at ht
        exact Or.inl ht
      · exact Option.noConfusion h
  | pollOk reqId resp =>
      simp only [step] at h
      split at h
      case h_1 req hreq =>
        split at h
        · injection h with h
          subst h
          intro t ht
          simp only [setIsLoading_timers] at ht
          have ht2 := stopPolling_timers_sub ht
          simp only [setJob_timers] at ht2
          exact Or.inl ht2
        · injection h with h
          subst h
          intro t ht
          simp only [List.mem_cons] at ht
          rcases ht with ht | ht
          · subst ht
            exact Or.inr (by simp)
          · simp only [setJob_timers] at ht
            exact Or.inl ht
      case h_2 => exact Option.noConfusion h
  | pollErr reqId msg =>
      simp only [step] at h
      split at h
      case h_1 req hreq =>
        injection h with h
        subst h
        intro t ht
        simp only [setIsLoading_timers] at ht
        have ht2 := stopPolling_timers_sub ht
        simp at ht2
        exact Or.inl ht2
      case h_2 => exact Option.noConfusion h
  | timerFire id =>
      simp only [step] at h
      split at h
      case h_1 t0 ht0 =>
        injection h with h
        subst h
        intro t ht
        simp only [startStatusRequest_timers] at ht
        exact Or.inl (List.mem_of_mem_filter ht)
      case h_2 => exact Option.noConfusion h
  | reset =>
      simp only [step] at h
      injection h with h
      subst h
      intro t ht
      simp only [setIsLoading_timers, setError_timers, setJob_timers] at ht
      exact Or.inl (stopPolling_timers_sub ht)
  | unmount =>
      simp only [step] at h
      injection h with h
      subst h
      intro t ht
      have ht2 := stopPolling_timers_sub (w := { w with mounted := false }) ht
      exact Or.inl ht2

/-- The timer/request handle allocator never goes backwards. -/
theorem step_next_mono {w w' : World R} {e : Ev R} (h : step w e = some w') :
    w.next ≤ w'.next := by
  cases e with
  | submitStart =>
      simp only [step] at h
      injection h with h
      subst h
      simp
  | submitOk reqId resp =>
      simp only [step] at h
      split at h
      · injection h with h
        subst h
        simp [startStatusRequest]
      · exact Option.noConfusion h
  | submitErr reqId msg =>
      simp only [step] at h
      split at h
      · injection h with h
        subst h
        simp
      · exact Option.noConfusion h
  | pollOk reqId resp =>
      simp only [step] at h
      split at h
      case h_1 req hreq =>
        split at h
        · injection h with h
          subst h
          simp
        · injection h with h
          subst h
          simp
      case h_2 => exact Option.noConfusion h
  | pollErr reqId msg =>
      simp only [step] at h
      split at h
      case h_1 req hreq =>
        injection h with h
        subst h
        simp
      case h_2 => exact Option.noConfusion h
  | timerFire id =>
      simp only [step] at h
      split at h
      case h_1 t0 ht0 =>
        injection h with h
        subst h
        simp [startStatusRequest]
      case h_2 => exact Option.noConfusion h
  | reset =>
      simp only [step] at h
      injection h with h
      subst h
      simp
  | unmount =>
      simp only [step] at h
      injection h with h
      subst h
      simp

/-- Predicate `timerDead` is preserved by every controller step. -/
theorem timerDead_step {w w' : World R} {r : Nat} {e : Ev R}
    (hd : timerDead w r) (h : step w e = some w') : timerDead w' r := by
  obtain ⟨hids, hlt⟩ := hd
  refine ⟨fun t ht => ?_, lt_of_lt_of_le hlt (step_next_mono h)⟩
  rcases step_timers_sub h t ht with hmem | hnew
  · exact hids t hmem
  · obtain ⟨hid, _⟩ := hnew
    omega

/-- Predicate `timerDead` is preserved by every trace. -/
theorem timerDead_run {r : Nat} :
    ∀ (evs : List (Ev R)) (w w' : World R),
      timerDead w r → run w evs = some w' → timerDead w' r := by
  intro evs
  induction evs with
  | nil =>
      intro w w' hd h
      simp only [run] at h
      injection h with h
      subst h
      exact hd
  | cons e rest ih =>
      intro w w' hd h
      simp only [run] at h
      split at h
      case h_1 w1 hw1 => exact ih w1 w' (timerDead_step hd hw1) h
      case h_2 => exact Option.noConfusion h

/-- C1 (amended): once the pending poll timer is cancelled — by `reset()` or
by the unmount cleanup, both of which run `stopPolling` on the handle held in
`pollTimeout.current` — that timer never fires in any continuation of the
execution: the `timerFire` event for its handle is forever invalid, so the
poll it would have scheduled never executes.  (The result of a status request
already in flight at cancellation time is, however, still applied:
`c1_counterexample`.) -/
theorem c1_cancelled_timer_never_fires (w : World R) (r : Nat) (e : Ev R)
    (evs : List (Ev R)) (w₁ w₂ : World R)
    (href : w.pollRef = some r) (hlt : r < w.next)
    (he : e = Ev.reset ∨ e = Ev.unmount)
    (h1 : step w e = some w₁) (h2 : run w₁ evs = some w₂) :
    step w₂ (Ev.timerFire r) = none := by
  have hstop : ∀ (v : World R), v.pollRef = some r →
      ∀ t ∈ (stopPolling v).timers, t.id ≠ r := by
    intro v hv t ht
    unfold stopPolling at ht
    rw [hv] at ht
    have := (List.mem_filter.1 ht).2
    simpa using this
  have hd1 : timerDead w₁ r := by
    rcases he with he | he <;> subst he
    · simp only [step] at h1
      injection h1 with h1
      subst h1
      refine ⟨fun t ht => ?_, ?_⟩
      · simp only [setIsLoading_timers, setError_timers, setJob_timers] at ht
        exact hstop w href t ht
      · simpa using hlt
    · simp only [step] at h1
      injection h1 with h1
      subst h1
      refine ⟨fun t ht => ?_, ?_⟩
      · exact hstop { w with mounted := false }
          (show ({ w with mounted := false } : World R).pollRef = some r from href) t ht
      · simpa [stopPolling_next] using hlt
  have hd2 : timerDead w₂ r := timerDead_run evs w₁ w₂ hd1 h2
  have hfind : w₂.timers.find? (fun t => t.id == r) = none :=
    List.find?_eq_none.mpr (fun t ht => by simpa using hd2.1 t ht)
  simp only [step, hfind]

/-- Witness state: a controller in the looping state, with timer 3 armed for
job "abc" and `pollTimeout.current = 3` (reached by the trace
`[submitStart, submitOk 1 pendingResp, pollOk 2 processingResp]`). -/
def c1wA : World Unit :=
  { job := some processingResp, error := none, isLoading := true, mounted := true,
    pollRef := some 3, timers := [⟨3, "abc", 1000⟩], inflightPolls := [],
    inflightSubmits := [], next := 4 }

/-- Witness state: `c1wA` after `reset()`. -/
def c1wB : World Unit :=
  { job := none, error := none, isLoading := false, mounted := true,
    pollRef := none, timers := [], inflightPolls := [], inflightSubmits := [],
    next := 4 }

/-- Witness for `c1_cancelled_timer_never_fires`: after `reset()` cancels
timer 3, the `timerFire 3` event is invalid. -/
theorem c1_witness :
    c1wA.pollRef = some 3 ∧ 3 < c1wA.next ∧ step c1wB (Ev.timerFire 3) = none :=
  ⟨rfl, by decide,
    c1_cancelled_timer_never_fires c1wA 3 Ev.reset [] c1wB c1wB rfl (by decide)
      (Or.inl rfl) rfl rfl⟩

/-! ## C4: chained polling keeps at most one status request in flight per job -/

/-- The "polling tokens" held for job `j`: armed poll timers whose scheduled
closure polls `j`, plus in-flight `getJobStatus` requests for `j`.  Chained
polling means this quantity never exceeds 1 for any job. -/
def pollTokens (w : World R) (j : String) : Nat :=
  w.timers.countP (fun t => t.jobId == j)
    + w.inflightPolls.countP (fun p => p.jobId == j)

/-- The environment contract that the backend assigns a fresh job id to every
submission: along the trace, no `submitOk` response reuses a job id of an
earlier submission response (nor one listed in `seen`). -/
def freshSubmits : List String → List (Ev R) → Bool
  | _, [] => true
  | seen, e :: rest =>
      match e with
      | .submitOk _ resp =>
          !(seen.contains resp.job_id) && freshSubmits (resp.job_id :: seen) rest
      | _ => freshSubmits seen rest

/-! ### Counting helpers -/

theorem countP_split {α : Type} (l : List α) (p q : α → Bool) :
    l.countP p = l.countP (fun a => p a && q a) + l.countP (fun a => p a && !q a) := by
  induction l with
  | nil => simp
  | cons a t ih =>
      simp only [List.countP_cons, ih]
      cases hp : p a <;> cases hq : q a <;> simp [hp, hq] <;> omega

theorem countP_filter_le {α : Type} (l : List α) (p q : α → Bool) :
    (l.filter q).countP p ≤ l.countP p :=
  (List.filter_sublist l).countP_le p

/-- Filtering out the elements matched by `q` removes at least one element
satisfying `p`, provided some element satisfies both. -/
theorem countP_filter_drop {α : Type} {l : List α} {a : α} (p q : α → Bool)
    (ha : a ∈ l) (hpa : p a = true) (hqa : q a = true) :
    (l.filter (fun x => !(q x))).countP p + 1 ≤ l.countP p := by
  have hsplit := countP_split l p q
  have hfil : (l.filter (fun x => !(q x))).countP p
      = l.countP (fun x => p x && !(q x)) := List.countP_filter _ _ _
  have hpos : 0 < l.countP (fun x => p x && q x) :=
    List.countP_pos_iff.mpr ⟨a, ha, by simp [hpa, hqa]⟩
  omega

@[simp] theorem stopPolling_inflightPolls (w : World R) :
    (stopPolling w).inflightPolls = w.inflightPolls := by
  unfold stopPolling; split <;> rfl

theorem stopPolling_countP_le (w : World R) (p : PollTimer → Bool) :
    (stopPolling w).timers.countP p ≤ w.timers.countP p := by
  unfold stopPolling
  split
  · exact countP_filter_le _ _ _
  · exact le_refl _

@[simp] theorem startStatusRequest_inflightPolls (w : World R) (j : String) :
    (startStatusRequest w j).inflightPolls = ⟨w.next, j⟩ :: w.inflightPolls := rfl

/-- A helper to compare tokens of two worlds componentwise. -/
theorem pollTokens_le_of {w v : World R} {j : String}
    (hT : v.timers.countP (fun t => t.jobId == j)
        ≤ w.timers.countP (fun t => t.jobId == j))
    (hP : v.inflightPolls.countP (fun p => p.jobId == j)
        ≤ w.inflightPolls.countP (fun p => p.jobId == j)) :
    pollTokens v j ≤ pollTokens w j :=
  Nat.add_le_add hT hP

/-- Every step other than a submission resolving can only decrease the
polling tokens of any job:
* `pollOk` with a non-terminal status consumes the in-flight request and arms
  one timer for the same job (net zero for that job);
* `timerFire` consumes the timer and issues one request for the same job;
* terminal / error resolutions and `reset` / `unmount` only remove. -/
theorem pollTokens_step_le {w w' : World R} {e : Ev R} (h : step w e = some w')
    (hnot : ∀ reqId resp, e ≠ Ev.submitOk reqId resp) (j : String) :
    pollTokens w' j ≤ pollTokens w j := by
  cases e with
  | submitStart =>
      simp only [step] at h
      injection h with h
      subst h
      refine pollTokens_le_of ?_ ?_ <;>
        simp [setIsLoading_timers, setError_timers, setJob_timers]
  | submitOk reqId resp => exact absurd rfl (hnot reqId resp)
  | submitErr reqId msg =>
      simp only [step] at h
      split at h
      · injection h with h
        subst h
        refine pollTokens_le_of ?_ ?_ <;>
          simp [setIsLoading_timers, setError_timers]
      · exact Option.noConfusion h
  | pollOk reqId resp =>
      simp only [step] at h
      split at h
      case h_1 req hreq =>
        split at h
        · -- terminal status: stopPolling + the consumed request
          injection h with h
          subst h
          refine pollTokens_le_of ?_ ?_
          · rw [setIsLoading_timers]
            refine le_trans (stopPolling_countP_le _ _) ?_
            rw [setJob_timers]
          · rw [setIsLoading_inflightPolls, stopPolling_inflightPolls,
              setJob_inflightPolls]
            exact countP_filter_le _ _ _
        · -- non-terminal status: one timer armed for the request's job
          injection h with h
          subst h
          unfold pollTokens
          simp only [List.countP_cons, setJob_timers, setJob_inflightPolls]
          have hqmem := List.mem_of_find?_eq_some hreq
          have hqeq := List.find?_some hreq
          by_cases hj : (req.jobId == j) = true
          · have hdrop : (w.inflightPolls.filter (fun p => !(p.id == reqId))).countP
                  (fun p => p.jobId == j) + 1
                ≤ w.inflightPolls.countP (fun p => p.jobId == j) :=
              countP_filter_drop _ _ hqmem hj hqeq
            simp only [hj, if_true]
            omega
          · have hfil := countP_filter_le w.inflightPolls
              (fun p : PollReq => p.jobId == j) (fun p : PollReq => !(p.id == reqId))
            simp [hj]
            omega
      case h_2 => exact Option.noConfusion h
  | pollErr reqId msg =>
      simp only [step] at h
      split at h
      case h_1 req hreq =>
        injection h with h
        subst h
        refine pollTokens_le_of ?_ ?_
        · rw [setIsLoading_timers]
          refine le_trans (stopPolling_countP_le _ _) ?_
          rw [setError_timers]
        · rw [setIsLoading_inflightPolls, stopPolling_inflightPolls,
            setError_inflightPolls]
          exact countP_filter_le _ _ _
      case h_2 => exact Option.noConfusion h
  | timerFire id =>
      simp only [step] at h
      split at h
      case h_1 t0 ht0 =>
        injection h with h
        subst h
        unfold pollTokens
        simp only [startStatusRequest_timers, startStatusRequest_inflightPolls,
          List.countP_cons]
        have hqmem := List.mem_of_find?_eq_some ht0
        have hqeq := List.find?_some ht0
        by_cases hj : (t0.jobId == j) = true
        · have hdrop : (w.timers.filter (fun u => !(u.id == id))).countP
                (fun t => t.jobId == j) + 1
              ≤ w.timers.countP (fun t => t.jobId == j) :=
            countP_filter_drop _ _ hqmem hj hqeq
          simp only [hj, if_true]
          omega
        · have hfil := countP_filter_le w.timers
            (fun t : PollTimer => t.jobId == j) (fun t : PollTimer => !(t.id == id))
          simp [hj]
          omega
      case h_2 => exact Option.noConfusion h
  | reset =>
      simp only [step] at h
      injection h with h
      subst h
      refine pollTokens_le_of ?_ ?_
      · rw [setIsLoading_timers, setError_timers, setJob_timers]
        exact stopPolling_countP_le _ _
      · rw [setIsLoading_inflightPolls, setError_inflightPolls,
          setJob_inflightPolls, stopPolling_inflightPolls]
  | unmount =>
      simp only [step] at h
      injection h with h
      subst h
      refine pollTokens_le_of ?_ ?_
      · exact stopPolling_countP_le _ _
      · rw [stopPolling_inflightPolls]

/-- A submission resolving adds exactly one token for the job id of the
response (the status request that `pollStatus` issues immediately). -/
theorem pollTokens_step_submitOk {w w' : World R} {reqId : Nat}
    {resp : JobResponse R} (h : step w (Ev.submitOk reqId resp) = some w')
    (j : String) :
    pollTokens w' j
      = pollTokens w j + (if (resp.job_id == j) = true then 1 else 0) := by
  simp only [step] at h
  split at h
  · injection h with h
    subst h
    unfold pollTokens
    simp only [startStatusRequest_timers, startStatusRequest_inflightPolls,
      List.countP_cons, setJob_timers, setJob_inflightPolls]
    omega
  · exact Option.noConfusion h

/-- The chained-polling invariant: every job holds at most one token, and
only jobs returned by an earlier submission hold any. -/
def TokInv (w : World R) (seen : List String) : Prop :=
  (∀ j, pollTokens w j ≤ 1) ∧ (∀ j, 0 < pollTokens w j → j ∈ seen)

theorem tokInv_run :
    ∀ (evs : List (Ev R)) (w : World R) (seen : List String) (w' : World R),
      TokInv w seen → freshSubmits seen evs = true → run w evs = some w' →
      ∀ j, pollTokens w' j ≤ 1 := by
  intro evs
  induction evs with
  | nil =>
      intro w seen w' hI _ h
      simp only [run] at h
      injection h with h
      subst h
      exact hI.1
  | cons e rest ih =>
      intro w seen w' hI hf h
      simp only [run] at h
      split at h
      case h_2 => exact Option.noConfusion h
      case h_1 w1 hw1 =>
        cases e
        case submitOk reqId resp =>
          simp only [freshSubmits, Bool.and_eq_true, Bool.not_eq_true'] at hf
          obtain ⟨hc, hf1⟩ := hf
          have hnotin : resp.job_id ∉ seen := by
            simp only [List.contains, List.elem_iff] at hc
            simpa using hc
          have htok := pollTokens_step_submitOk hw1
          have hI1 : TokInv w1 (resp.job_id :: seen) := by
            constructor
            · intro j
              by_cases hj : (resp.job_id == j) = true
              · have hje : resp.job_id = j := beq_iff_eq.mp hj
                have h0 : pollTokens w j = 0 := by
                  by_contra hne
                  exact hnotin (hje ▸ hI.2 j (Nat.pos_of_ne_zero hne))
                rw [htok j, h0]
                simp [hj]
              · rw [htok j]
                simp only [hj, if_false, Nat.add_zero]
                exact hI.1 j
            · intro j hpos
              rw [htok j] at hpos
              by_cases hj : (resp.job_id == j) = true
              · exact (beq_iff_eq.mp hj) ▸ List.mem_cons_self _ _
              · simp only [hj, if_false, Nat.add_zero] at hpos
                exact List.mem_cons_of_mem _ (hI.2 j hpos)
          exact ih w1 (resp.job_id :: seen) w' hI1 hf1 h
        all_goals {
          have hle := pollTokens_step_le hw1 (fun _ _ hcon => Ev.noConfusion hcon)
          have hI1 : TokInv w1 seen :=
            ⟨fun j => le_trans (hle j) (hI.1 j),
             fun j hp => hI.2 j (lt_of_lt_of_le hp (hle j))⟩
          simp only [freshSubmits] at hf
          exact ih w1 seen w' hI1 hf h
        }

/-- Every armed poll timer carries the fixed 1000 ms delay. -/
def Timers1000 (w : World R) : Prop := ∀ t ∈ w.timers, t.delayMs = 1000

theorem timers1000_run :
    ∀ (evs : List (Ev R)) (w w' : World R),
      Timers1000 w → run w evs = some w' → Timers1000 w' := by
  intro evs
  induction evs with
  | nil =>
      intro w w' hT h
      simp only [run] at h
      injection h with h
      subst h
      exact hT
  | cons e rest ih =>
      intro w w' hT h
      simp only [run] at h
      split at h
      case h_2 => exact Option.noConfusion h
      case h_1 w1 hw1 =>
        refine ih w1 w' (fun t ht => ?_) h
        rcases step_timers_sub hw1 t ht with hmem | hnew
        · exact hT t hmem
        · exact hnew.2

/-- C4: provided the backend returns a fresh job id for every submission (the
`freshSubmits` environment contract), the chained polling loop maintains, in
every reachable state, at most one polling token per job — in particular at
most one in-flight status request per job at any instant, and never an armed
timer and an in-flight request for the same job simultaneously — and every
armed poll timer carries the fixed 1000 ms delay of `setTimeout(..., 1000)`. -/
theorem c4_single_inflight (evs : List (Ev R)) (w' : World R)
    (hfresh : freshSubmits [] evs = true) (hrun : run initWorld evs = some w')
    (j : String) :
    pollTokens w' j ≤ 1 ∧ (∀ t ∈ w'.timers, t.delayMs = 1000) := by
  refine ⟨tokInv_run evs initWorld [] w' ⟨?_, ?_⟩ hfresh hrun j,
    timers1000_run evs initWorld w' ?_ hrun⟩
  · intro j0
    simp [pollTokens, initWorld]
  · intro j0 hp
    simp [pollTokens, initWorld] at hp
  · intro t ht
    simp [initWorld] at ht

/-- Concrete trace for the C4 witness (a full successful polling session). -/
def c4Trace : List (Ev Unit) :=
  [.submitStart, .submitOk 1 pendingResp, .pollOk 2 processingResp,
   .timerFire 3, .pollOk 4 completedResp]

/-- Final state of `c4Trace`. -/
def c4wFin : World Unit :=
  { job := some completedResp, error := none, isLoading := false, mounted := true,
    pollRef := none, timers := [], inflightPolls := [], inflightSubmits := [],
    next := 5 }

/-- Witness for `c4_single_inflight` on a concrete trace. -/
theorem c4_witness :
    freshSubmits [] c4Trace = true ∧ pollTokens c4wFin "abc" ≤ 1 :=
  ⟨rfl, (c4_single_inflight c4Trace c4wFin rfl rfl "abc").1⟩

end Diagnostic

namespace Telemetry

/-- JSON values, the result of a successful `JSON.parse(event.data)`.
Numeric payloads are modelled as integers: no claim depends on fractional
values, only on payloads being passed through unchanged. -/
inductive Json where
  | null
  | bool (b : Bool)
  | num (n : Int)
  | str (s : String)
  | arr (xs : List Json)
  | obj (fields : List (String × Json))

/-- Field lookup in a JSON object (first binding wins). -/
def lookupField : List (String × Json) → String → Option Json
  | [], _ => none
  | (k, v) :: rest, key => if k == key then some v else lookupField rest key

/-- JS property access `j.key`, `none` when absent or not an object (in JS:
`undefined`). -/
def getField (j : Json) (key : String) : Option Json :=
  match j with
  | .obj fs => lookupField fs key
  | _ => none

/-- The JS test `message.type === t` on payloads where it returns normally:
true exactly when `j` is an object whose `type` field is the string `t`; on
non-null non-objects (numbers, strings, booleans, arrays) property access
yields `undefined`, so the comparison is false.  On the payload `null` the
real expression instead THROWS a TypeError — that error path is modelled
separately by `hookThrows` and the throwing fan-out `notifyAllWith`; this
Bool-valued test is used only where the null case is excluded or where the
throw is observationally irrelevant to the stated property. -/
def tagIs (j : Json) (t : String) : Bool :=
  match j with
  | .obj fs =>
      match lookupField fs "type" with
      | some (.str s) => s == t
      | _ => false
  | _ => false

/-- Browser `WebSocket.readyState`. -/
inductive ReadyState where
  | connecting
  | open_
  | closing
  | closed
deriving DecidableEq, Repr

/-- The state of one `TelemetryWebSocket` instance together with the sockets
and timers it owns.  `sockets` registers every socket ever created with its
current ready state (old sockets keep their handlers attached, which close
over `this`, so their events still run the handler bodies); `ws` is
`this.ws`; `reconnectTimeout` is the stored timer handle — faithfully to the
source, it is NOT cleared by `disconnect()`, only by `onopen` and by the
timer firing, so it can go stale; `reconTimers` are the actually-armed
reconnect timers (handle, delay ms); `delivered` is the history of
(listener, message) deliveries made by `notifyListeners`; `parseErrors`
counts the `console.error` calls of the `onmessage` catch block. -/
structure Chan where
  sockets : List (Nat × ReadyState)
  ws : Option Nat
  listeners : List Nat
  reconnectTimeout : Option Nat
  isExplicitlyClosed : Bool
  reconTimers : List (Nat × Nat)
  delivered : List (Nat × Json)
  parseErrors : Nat
  next : Nat

/-- Ready state of socket `sid`. -/
def lookupSock (w : Chan) (sid : Nat) : Option ReadyState :=
  (w.sockets.find? (fun s => s.1 == sid)).map (fun s => s.2)

/-- Update the ready state of socket `sid`. -/
def setSock (w : Chan) (sid : Nat) (st : ReadyState) : Chan :=
  { w with sockets := w.sockets.map (fun s => if s.1 == sid then (s.1, st) else s) }

/-- Method `close()` on socket `sid`: a connecting or open socket starts closing
(its `onclose` will fire later as a `closeEv`); closing or closed sockets are
unaffected. -/
def closeSock (w : Chan) (sid : Nat) : Chan :=
  match lookupSock w sid with
  | some .connecting => setSock w sid .closing
  | some .open_ => setSock w sid .closing
  | _ => w

/-- Function `scheduleReconnect` from the source: `if (this.reconnectTimeout) return;`
then arm a 3000 ms timer and store its handle.  The truthiness guard tests
the *stored handle*, whether or not the timer behind it is still armed. -/
def scheduleReconnect (w : Chan) : Chan :=
  if w.reconnectTimeout.isSome then w
  else { w with reconTimers := (w.next, 3000) :: w.reconTimers,
                reconnectTimeout := some w.next, next := w.next + 1 }

/-- Body of `connect()`: no-op when the current socket is open or connecting;
otherwise clear the explicitly-closed flag and create a fresh socket. -/
def connectBody (w : Chan) : Chan :=
  let active :=
    match w.ws with
    | some sid =>
        match lookupSock w sid with
        | some .open_ => true
        | some .connecting => true
        | _ => false
    | none => false
  if active then w
  else { w with isExplicitlyClosed := false,
                sockets := w.sockets ++ [(w.next, ReadyState.connecting)],
                ws := some w.next, next := w.next + 1 }

/-- Event-loop events for the channel:
* `connect` / `disconnect` / `subscribe l` / `unsubscribe l`: caller actions
  (an `unsubscribe` is the closure returned by `subscribe`);
* `openEv` / `closeEv` / `errorEv` / `messageEv` on a given socket: browser
  socket events, running the handler that `connect()` attached;
* `messageEv sid payload` carries the result of `JSON.parse(event.data)`:
  `none` models a payload that fails to parse (the catch branch);
* `reconFire h`: the armed reconnect timer `h` fires. -/
inductive CEv where
  | connect
  | disconnect
  | openEv (sid : Nat)
  | closeEv (sid : Nat)
  | errorEv (sid : Nat)
  | messageEv (sid : Nat) (payload : Option Json)
  | reconFire (h : Nat)
  | subscribe (l : Nat)
  | unsubscribe (l : Nat)

/-- One event-loop step of the channel, translated line by line from
`frontend/src/services/websocket.ts`. -/
def chanStep (w : Chan) : CEv → Option Chan
  | .connect => some (connectBody w)
  | .disconnect =>
      -- isExplicitlyClosed = true; ws.close(); ws = null;
      -- if (reconnectTimeout) clearTimeout(reconnectTimeout)  [handle NOT nulled]
      let w1 := { w with isExplicitlyClosed := true }
      let w2 :=
        match w1.ws with
        | some sid => { closeSock w1 sid with ws := none }
        | none => w1
      some (match w2.reconnectTimeout with
        | some h => { w2 with reconTimers := w2.reconTimers.filter (fun t => !(t.1 == h)) }
        | none => w2)
  | .openEv sid =>
      match lookupSock w sid with
      | some .connecting =>
          -- onopen: if (reconnectTimeout) { clearTimeout; reconnectTimeout = null }
          let w1 := setSock w sid .open_
          some (match w1.reconnectTimeout with
            | some h => { w1 with reconTimers := w1.reconTimers.filter (fun t => !(t.1 == h)),
                                  reconnectTimeout := none }
            | none => w1)
      | _ => none
  | .closeEv sid =>
      match lookupSock w sid with
      | some .closed => none
      | none => none
      | some _ =>
          -- onclose: if (!isExplicitlyClosed) scheduleReconnect()
          let w1 := setSock w sid .closed
          some (if w1.isExplicitlyClosed then w1 else scheduleReconnect w1)
  | .errorEv sid =>
      match lookupSock w sid with
      | some .connecting =>
          -- onerror: this.ws?.close()  [closes the CURRENT socket]
          some (match w.ws with | some cur => closeSock w cur | none => w)
      | some .open_ =>
          some (match w.ws with | some cur => closeSock w cur | none => w)
      | _ => none
  | .messageEv sid payload =>
      match lookupSock w sid with
      | some .open_ =>
          match payload with
          | none =>
              -- catch (e) { console.error("Failed to parse ...", e) }
              some { w with parseErrors := w.parseErrors + 1 }
          | some d =>
              -- notifyListeners(data): listeners.forEach(l => l(data))
              some { w with delivered := w.delivered ++ w.listeners.map (fun l => (l, d)) }
      | _ => none
  | .reconFire h =>
      if w.reconTimers.any (fun t => t.1 == h) then
        -- timer body: reconnectTimeout = null; connect()
        let w1 := { w with reconTimers := w.reconTimers.filter (fun t => !(t.1 == h)),
                           reconnectTimeout := none }
        some (connectBody w1)
      else none
  | .subscribe l =>
      -- Set.add: appended in insertion order, idempotent
      some { w with listeners := if w.listeners.contains l then w.listeners
                                 else w.listeners ++ [l] }
  | .unsubscribe l =>
      -- the returned closure: () => this.listeners.delete(listener)
      some { w with listeners := w.listeners.filter (fun x => !(x == l)) }

/-- A freshly constructed `TelemetryWebSocket` (the module-level singleton). -/
def chanInit : Chan :=
  { sockets := [], ws := none, listeners := [], reconnectTimeout := none,
    isExplicitlyClosed := false, reconTimers := [], delivered := [],
    parseErrors := 0, next := 1 }

/-- Execute a trace of channel events. -/
def chanRun (w : Chan) : List CEv → Option Chan
  | [] => some w
  | e :: rest =>
      match chanStep w e with
      | some w1 => chanRun w1 rest
      | none => none

/-! ## C2: the stale reconnect handle left by `disconnect()` -/

/-- The C2 failing trace: sock 1 is created by `connect()` and drops
unexpectedly, arming reconnect timer 2; `disconnect()` clears that timer but
leaves `this.reconnectTimeout = 2` (stale); `connect()` creates sock 3, which
drops unexpectedly. -/
def c2Trace : List CEv :=
  [.connect, .closeEv 1, .disconnect, .connect, .closeEv 3]

/-- C2 evaluated at the failing input: after the final unexpected close
(`isExplicitlyClosed = false`), ZERO reconnect timers are armed — the claim
requires exactly one.  `scheduleReconnect` returned early because
`disconnect()` ran `clearTimeout(this.reconnectTimeout)` without nulling the
stored handle, which is still `2`. -/
theorem c2_no_reconnect_after_cycle :
    (chanRun chanInit c2Trace).map
      (fun w => (w.reconTimers.length, w.isExplicitlyClosed, w.reconnectTimeout)) =
    some (0, false, some 2) := rfl

/-- The C5 counterexample trace: the C2 trace followed by yet another
`connect()` / unexpected-close cycle. -/
def c5Trace : List CEv := c2Trace ++ [.connect, .closeEv 4]

/-- C5 counterexample: reconnection stays suppressed even after LATER
`connect()` calls cleared the explicitly-closed flag — the final state has
`isExplicitlyClosed = false` yet no reconnect timer was ever armed again,
refuting the conjunct that `disconnect()` is the only path that permanently
suppresses reconnection and that a later `connect()` restores it. -/
theorem c5_counterexample :
    (chanRun chanInit c5Trace).map
      (fun w => (w.isExplicitlyClosed, w.reconTimers.length)) =
    some (false, 0) := rfl

/-! ## C8: parse failures are logged and dropped -/

/-- C8: on an open socket, a frame whose payload fails `JSON.parse` only
increments the error log — no subscriber is notified (`delivered` unchanged),
the socket registry (hence the connection) is untouched, the listener set is
untouched, and the handler returns normally (`some`, no exception escapes);
moreover a subsequent well-formed frame on the same socket is delivered to
all listeners as usual. -/
theorem c8_parse_failure_dropped (w : Chan) (sid : Nat)
    (hopen : lookupSock w sid = some ReadyState.open_) :
    chanStep w (.messageEv sid none) = some { w with parseErrors := w.parseErrors + 1 } ∧
    ∀ d : Json,
      chanStep { w with parseErrors := w.parseErrors + 1 } (.messageEv sid (some d)) =
        some { w with parseErrors := w.parseErrors + 1,
                      delivered := w.delivered ++ w.listeners.map (fun l => (l, d)) } := by
  constructor
  · simp only [chanStep, hopen]
  · intro d
    have h2 : lookupSock { w with parseErrors := w.parseErrors + 1 } sid
        = some ReadyState.open_ := hopen
    simp only [chanStep, h2]

/-- Witness channel state: one open socket, one subscriber. -/
def c8w : Chan :=
  { sockets := [(1, ReadyState.open_)], ws := some 1, listeners := [7],
    reconnectTimeout := none, isExplicitlyClosed := false, reconTimers := [],
    delivered := [], parseErrors := 0, next := 2 }

/-- Witness for `c8_parse_failure_dropped` on a concrete state. -/
theorem c8_witness :
    chanStep c8w (.messageEv 1 none) = some { c8w with parseErrors := 1 } ∧
    chanStep { c8w with parseErrors := 1 } (.messageEv 1 (some (Json.str "x"))) =
      some { c8w with parseErrors := 1, delivered := [(7, Json.str "x")] } :=
  ⟨(c8_parse_failure_dropped c8w 1 rfl).1,
   (c8_parse_failure_dropped c8w 1 rfl).2 (Json.str "x")⟩

/-! ## C10: what the listener fan-out actually guarantees per payload -/

/-- State of one `useWebSocket()` consumer (frontend/src/types/diagnostic.ts):
the `telemetry` and `isConnected` React state cells. -/
structure UseWsState where
  telemetry : Option Json
  isConnected : Bool

/-- The subscriber callback registered by `useWebSocket` — only here is the
message type discriminated — on the payloads where it returns normally
(every non-null `message`).  On `Json.null` the real callback throws a
TypeError at `message.type` (see `hookThrows`) BEFORE reaching any state
setter, so the hook's own state is unchanged either way; this total version
returns the state unchanged there, which is observationally identical for
the hook's state and is what the single-subscriber system of C9 observes.
The throw's aborting effect on OTHER listeners of the same dispatch is
modelled by `notifyAllWith`. -/
def useWsListener (st : UseWsState) (message : Json) : UseWsState :=
  if tagIs message "telemetry" then
    { st with telemetry := getField message "data", isConnected := true }
  else if tagIs message "pong" then
    { st with isConnected := true }
  else st

/-- Whether the `useWebSocket` callback throws when invoked on `message`:
the property access `message.type` throws a TypeError exactly when the
parsed payload is `null`; on every other value (object or not) it yields the
property or `undefined` and the callback returns normally. -/
def hookThrows : Json → Bool
  | .null => true
  | _ => false

/-- Fan-out `this.listeners.forEach((listener) => listener(data))` where
invoking listener `l` on payload `d` throws iff `thr l d`: subscribers are
visited in insertion order and each invoked one receives `d` unchanged; if
an invocation throws, the `forEach` aborts — listeners not yet visited are
skipped — and the exception propagates out of `notifyListeners` into the
`onmessage` try/catch, which swallows it (the connection survives).
Returns the (listener, payload) deliveries made and whether a throw
occurred. -/
def notifyAllWith (thr : Nat → Json → Bool) (d : Json) :
    List Nat → List (Nat × Json) × Bool
  | [] => ([], false)
  | l :: rest =>
      if thr l d then ([(l, d)], true)
      else
        let r := notifyAllWith thr d rest
        ((l, d) :: r.1, r.2)

/-- C10 counterexample: with the hook (listener 0) and a second listener 7
subscribed in that insertion order — both instances of the `useWebSocket`
callback — the payload JSON `null` ("not an object at all", a valid
`JSON.parse` result of the frame text `null`) is NOT delivered to every
currently subscribed listener: listener 0 is invoked and throws a TypeError
at `message.type`, the `forEach` aborts, and listener 7 never receives the
message (the exception is then swallowed by the `onmessage` catch). -/
theorem c10_counterexample :
    notifyAllWith (fun _ p => hookThrows p) Json.null [0, 7]
      = ([(0, Json.null)], true) := rfl

/-- C10 (amended): the channel performs no schema validation or type
filtering — the fan-out inspects no tag — but delivery to every subscriber
holds only for payloads on which no subscriber throws.  With the
repository's subscribers (instances of the `useWebSocket` callback, which
throws only on `null`): for every parsed payload other than JSON `null` —
tagged `telemetry`, `pong`, an unrecognized type, or a non-object such as a
number, string, boolean or array — every currently subscribed listener
receives the payload unchanged and no exception occurs; discrimination by
message type happens only in the subscriber, which leaves its state
unchanged unless the tag is `telemetry` or `pong`. -/
theorem c10_nonnull_fanout (d : Json) (hd : hookThrows d = false)
    (subs : List Nat) :
    notifyAllWith (fun _ p => hookThrows p) d subs
      = (subs.map (fun l => (l, d)), false) ∧
    ∀ st : UseWsState, tagIs d "telemetry" = false → tagIs d "pong" = false →
      useWsListener st d = st := by
  constructor
  · induction subs with
    | nil => rfl
    | cons l rest ih =>
        simp [notifyAllWith, hd, ih]
  · intro st h1 h2
    simp [useWsListener, h1, h2]

/-- Witness for `c10_nonnull_fanout`: a numeric (non-object) payload is
delivered unchanged to both subscribed listeners with no throw, and the hook
subscriber ignores it. -/
theorem c10_nonnull_witness :
    hookThrows (Json.num 5) = false ∧
    notifyAllWith (fun _ p => hookThrows p) (Json.num 5) [0, 7]
      = ([(0, Json.num 5), (7, Json.num 5)], false) ∧
    useWsListener ⟨none, false⟩ (Json.num 5) = ⟨none, false⟩ :=
  ⟨rfl,
   (c10_nonnull_fanout (Json.num 5) rfl [0, 7]).1,
   (c10_nonnull_fanout (Json.num 5) rfl [0, 7]).2 ⟨none, false⟩ rfl rfl⟩

/-! ## C7: unsubscribe during dispatch -/

/-- Dispatch `notifyListeners`: `this.listeners.forEach((listener) => listener(data))`
with listeners that may unsubscribe others while the dispatch is running.
JS `Set.forEach` iterates the LIVE set in insertion order: an element removed
before being visited is skipped, all others are visited.  `pending` is the
insertion-order iteration list, `subs` the currently subscribed listeners,
and `eff l` the listeners that listener `l` unsubscribes when invoked
(calling the closures returned by `subscribe`).  Returns the list of
listeners the message was delivered to, and the final subscriber set.  The
function is total: dispatch never throws. -/
def notifyForEach (eff : Nat → List Nat) : List Nat → List Nat → List Nat × List Nat
  | [], subs => ([], subs)
  | l :: rest, subs =>
      if subs.contains l then
        let subs1 := subs.filter (fun x => !((eff l).contains x))
        let r := notifyForEach eff rest subs1
        (l :: r.1, r.2)
      else notifyForEach eff rest subs

/-- C7: during a dispatch, any listener that is subscribed when the dispatch
starts and is not unsubscribed by anyone during the dispatch receives the
message — unsubscription of other listeners mid-dispatch never corrupts or
skips its delivery, and the dispatch runs to completion (totality: no
exception). -/
theorem c7_no_skip (eff : Nat → List Nat) (order subs : List Nat) (l : Nat)
    (hord : l ∈ order) (hsub : l ∈ subs) (heff : ∀ k, l ∉ eff k) :
    l ∈ (notifyForEach eff order subs).1 := by
  induction order generalizing subs with
  | nil => cases hord
  | cons k rest ih =>
      simp only [notifyForEach]
      split
      · by_cases hlk : l = k
        · subst hlk
          exact List.mem_cons_self _ _
        · have hord2 : l ∈ rest := by
            rcases List.mem_cons.1 hord with h1 | h1
            · exact absurd h1 hlk
            · exact h1
          have hsub2 : l ∈ subs.filter (fun x => !((eff k).contains x)) := by
            rw [List.mem_filter]
            refine ⟨hsub, ?_⟩
            have hnc : (eff k).contains l = false := by
              by_contra hc
              rw [Bool.not_eq_false] at hc
              simp only [List.contains, List.elem_iff] at hc
              exact heff k hc
            show (!((eff k).contains l)) = true
            rw [hnc]
            rfl
          exact List.mem_cons_of_mem _ (ih _ hord2 hsub2)
      · case isFalse hns =>
          have hlk : l ≠ k := by
            intro he
            subst he
            exact hns (by simpa [List.contains, List.elem_iff] using hsub)
          have hord2 : l ∈ rest := by
            rcases List.mem_cons.1 hord with h1 | h1
            · exact absurd h1 hlk
            · exact h1
          exact ih _ hord2 hsub

/-- Unsubscription behaviour for the C7 witness: listener 1 unsubscribes
listener 2 when invoked. -/
def c7eff : Nat → List Nat := fun k => if k = 1 then [2] else []

/-- Witness for `c7_no_skip`: with listeners 1, 2, 3 subscribed and listener 1
unsubscribing listener 2 mid-dispatch, listener 3 still receives the
message. -/
theorem c7_witness :
    3 ∈ ([1, 2, 3] : List Nat) ∧ 3 ∈ (notifyForEach c7eff [1, 2, 3] [1, 2, 3]).1 :=
  ⟨by decide,
   c7_no_skip c7eff [1, 2, 3] [1, 2, 3] 3 (by decide) (by decide)
     (fun k => by unfold c7eff; split <;> decide)⟩

/-! ## C5 (amended): after `disconnect()`, no reconnect until the next `connect()` -/

def isConnectEv : CEv → Bool
  | .connect => true
  | _ => false

def isReconFire : CEv → Bool
  | .reconFire _ => true
  | _ => false

/-- No `connect()` call occurs in the trace. -/
def noConnectB (evs : List CEv) : Bool := evs.all (fun e => !(isConnectEv e))

/-- Reconnection is suppressed: the explicitly-closed flag is set and no
reconnect timer is armed. -/
def Suppressed (w : Chan) : Prop :=
  w.isExplicitlyClosed = true ∧ w.reconTimers = []

@[simp] theorem setSock_listeners (w : Chan) (sid : Nat) (st : ReadyState) :
    (setSock w sid st).listeners = w.listeners := rfl

@[simp] theorem setSock_reconnectTimeout (w : Chan) (sid : Nat) (st : ReadyState) :
    (setSock w sid st).reconnectTimeout = w.reconnectTimeout := rfl

@[simp] theorem setSock_reconTimers (w : Chan) (sid : Nat) (st : ReadyState) :
    (setSock w sid st).reconTimers = w.reconTimers := rfl

@[simp] theorem setSock_isExplicitlyClosed (w : Chan) (sid : Nat) (st : ReadyState) :
    (setSock w sid st).isExplicitlyClosed = w.isExplicitlyClosed := rfl

@[simp] theorem closeSock_listeners (w : Chan) (sid : Nat) :
    (closeSock w sid).listeners = w.listeners := by
  unfold closeSock; split <;> rfl

@[simp] theorem closeSock_reconnectTimeout (w : Chan) (sid : Nat) :
    (closeSock w sid).reconnectTimeout = w.reconnectTimeout := by
  unfold closeSock; split <;> rfl

@[simp] theorem closeSock_reconTimers (w : Chan) (sid : Nat) :
    (closeSock w sid).reconTimers = w.reconTimers := by
  unfold closeSock; split <;> rfl

@[simp] theorem closeSock_isExplicitlyClosed (w : Chan) (sid : Nat) :
    (closeSock w sid).isExplicitlyClosed = w.isExplicitlyClosed := by
  unfold closeSock; split <;> rfl

@[simp] theorem connectBody_listeners (w : Chan) :
    (connectBody w).listeners = w.listeners := by
  simp only [connectBody]
  split <;> rfl

@[simp] theorem scheduleReconnect_listeners (w : Chan) :
    (scheduleReconnect w).listeners = w.listeners := by
  unfold scheduleReconnect; split <;> rfl

/-- Calling `disconnect()` establishes suppression, provided the stored handle is
live whenever a reconnect timer is armed (which holds in every reachable
state: `scheduleReconnect` stores the handle of the timer it arms). -/
theorem disconnect_suppressed {w w1 : Chan}
    (hInv : ∀ t ∈ w.reconTimers, w.reconnectTimeout = some t.1)
    (h : chanStep w CEv.disconnect = some w1) : Suppressed w1 := by
  rcases hrt : w.reconnectTimeout with _ | h0
  · have hempty : w.reconTimers = [] := by
      refine List.eq_nil_iff_forall_not_mem.mpr (fun t ht => ?_)
      have := hInv t ht
      rw [hrt] at this
      exact Option.noConfusion this
    rcases hws : w.ws with _ | sid <;>
      · simp only [chanStep, hws, hrt, closeSock_reconnectTimeout] at h
        injection h with h
        subst h
        constructor
        · simp
        · simp [hempty]
  · have hall : ∀ t ∈ w.reconTimers, (!(t.1 == h0)) = false := by
      intro t ht
      have := hInv t ht
      rw [hrt] at this
      injection this with this
      simp [this]
    rcases hws : w.ws with _ | sid <;>
      · simp only [chanStep, hws, hrt, closeSock_reconnectTimeout] at h
        injection h with h
        subst h
        constructor
        · simp
        · simp only [closeSock_reconTimers]
          exact List.filter_eq_nil_iff.mpr (fun t ht => by simp [hall t ht])

/-- With suppression in force, the reconnect timer event is invalid. -/
theorem suppressed_no_fire {w : Chan} (hs : Suppressed w) (h0 : Nat) :
    chanStep w (CEv.reconFire h0) = none := by
  simp [chanStep, hs.2]

/-- Every event other than `connect` preserves suppression. -/
theorem suppressed_step {w w1 : Chan} {e : CEv} (hs : Suppressed w)
    (hne : isConnectEv e = false) (h : chanStep w e = some w1) :
    Suppressed w1 := by
  obtain ⟨hx, hr⟩ := hs
  cases e with
  | connect => exact absurd hne (by simp [isConnectEv])
  | disconnect =>
      exact disconnect_suppressed (fun t ht => by rw [hr] at ht; cases ht) h
  | openEv sid =>
      simp only [chanStep] at h
      split at h
      case h_1 =>
        rcases hrt : w.reconnectTimeout with _ | h0 <;>
          · simp only [hrt, setSock_reconnectTimeout] at h
            injection h with h
            subst h
            exact ⟨by simp [hx], by simp [hr]⟩
      case h_2 => exact Option.noConfusion h
  | closeEv sid =>
      simp only [chanStep] at h
      split at h
      case h_1 => exact Option.noConfusion h
      case h_2 => exact Option.noConfusion h
      case h_3 =>
        simp only [setSock_isExplicitlyClosed, hx, if_true] at h
        injection h with h
        subst h
        exact ⟨by simp [hx], by simp [hr]⟩
  | errorEv sid =>
      simp only [chanStep] at h
      split at h <;> try exact Option.noConfusion h
      all_goals {
        rcases hws : w.ws with _ | cur <;>
          · simp only [hws] at h
            injection h with h
            subst h
            exact ⟨by simp [hx], by simp [hr]⟩
      }
  | messageEv sid payload =>
      simp only [chanStep] at h
      split at h
      case h_1 =>
        cases payload with
        | none =>
            injection h with h
            subst h
            exact ⟨hx, hr⟩
        | some d =>
            injection h with h
            subst h
            exact ⟨hx, hr⟩
      case h_2 => exact Option.noConfusion h
  | reconFire h0 =>
      rw [suppressed_no_fire ⟨hx, hr⟩ h0] at h
      exact Option.noConfusion h
  | subscribe l =>
      simp only [chanStep] at h
      injection h with h
      subst h
      exact ⟨hx, hr⟩
  | unsubscribe l =>
      simp only [chanStep] at h
      injection h with h
      subst h
      exact ⟨hx, hr⟩

/-- Suppression persists along any connect-free trace, and no reconnect timer
fires along it. -/
theorem suppressed_run :
    ∀ (evs : List CEv) (w w' : Chan), Suppressed w →
      noConnectB evs = true → chanRun w evs = some w' →
      Suppressed w' ∧ ∀ e ∈ evs, isReconFire e = false := by
  intro evs
  induction evs with
  | nil =>
      intro w w' hs _ h
      simp only [chanRun] at h
      injection h with h
      subst h
      exact ⟨hs, fun e he => absurd he (List.not_mem_nil e)⟩
  | cons e rest ih =>
      intro w w' hs hnc h
      simp only [noConnectB, List.all_cons, Bool.and_eq_true] at hnc
      simp only [chanRun] at h
      split at h
      case h_2 => exact Option.noConfusion h
      case h_1 w1 hw1 =>
        have hne : isConnectEv e = false := by
          have := hnc.1
          rwa [Bool.not_eq_true'] at this
        have hs1 := suppressed_step hs hne hw1
        have hnf : isReconFire e = false := by
          cases e with
          | reconFire h0 =>
              rw [suppressed_no_fire hs h0] at hw1
              exact Option.noConfusion hw1
          | connect => rfl
          | disconnect => rfl
          | openEv sid => rfl
          | closeEv sid => rfl
          | errorEv sid => rfl
          | messageEv sid payload => rfl
          | subscribe l => rfl
          | unsubscribe l => rfl
        obtain ⟨hsw, hrest⟩ := ih w1 w' hs1 hnc.2 h
        refine ⟨hsw, fun e2 he2 => ?_⟩
        rcases List.mem_cons.1 he2 with he2 | he2
        · subst he2; exact hnf
        · exact hrest e2 he2

/-- C5 (amended): after `disconnect()` — which cancels any live reconnect
timer and sets the explicitly-closed flag — no reconnect ever occurs in any
continuation that contains no further `connect()` call: the state keeps the
flag set, zero reconnect timers armed, and no reconnect timer can fire.
(What a later `connect()` does NOT restore is shown by `c5_counterexample`:
the stale stored handle keeps suppressing `scheduleReconnect`.) -/
theorem c5_no_reconnect_after_disconnect (w w₁ w₂ : Chan) (evs : List CEv)
    (hInv : ∀ t ∈ w.reconTimers, w.reconnectTimeout = some t.1)
    (h1 : chanStep w CEv.disconnect = some w₁)
    (hnc : noConnectB evs = true)
    (h2 : chanRun w₁ evs = some w₂) :
    w₂.isExplicitlyClosed = true ∧ w₂.reconTimers = [] ∧
      ∀ e ∈ evs, isReconFire e = false := by
  have hs1 := disconnect_suppressed hInv h1
  obtain ⟨hs2, hnf⟩ := suppressed_run evs w₁ w₂ hs1 hnc h2
  exact ⟨hs2.1, hs2.2, hnf⟩

/-- Witness state: the fresh channel right after `disconnect()`. -/
def c5w1 : Chan := { chanInit with isExplicitlyClosed := true }

/-- Witness state: `c5w1` after an unrelated `subscribe(5)`. -/
def c5w2 : Chan := { chanInit with isExplicitlyClosed := true, listeners := [5] }

/-- Witness for `c5_no_reconnect_after_disconnect` on a concrete trace. -/
theorem c5_witness : c5w2.isExplicitlyClosed = true ∧ c5w2.reconTimers = [] :=
  ⟨(c5_no_reconnect_after_disconnect chanInit c5w1 c5w2 [CEv.subscribe 5]
      (fun t ht => absurd ht (List.not_mem_nil t)) rfl rfl rfl).1,
   (c5_no_reconnect_after_disconnect chanInit c5w1 c5w2 [CEv.subscribe 5]
      (fun t ht => absurd ht (List.not_mem_nil t)) rfl rfl rfl).2.1⟩

/-! ## C9: what `isConnected` actually tracks -/

/-- The channel together with one mounted `useWebSocket()` consumer,
subscribed as listener 0 (the hook's `useEffect` runs
`telemetryService.connect()` and `subscribe(listener)` on mount; traces start
after the subscription, with the `connect` event supplied by the trace). -/
structure Sys where
  chan : Chan
  hook : UseWsState

def sysInit : Sys :=
  { chan := { chanInit with listeners := [0] },
    hook := { telemetry := none, isConnected := false } }

/-- One step of the combined system: the channel steps, and if the event is a
successfully parsed message while the hook is subscribed, the hook's callback
runs synchronously on it. -/
def sysStep (s : Sys) (e : CEv) : Option Sys :=
  match chanStep s.chan e with
  | some c1 =>
      some { chan := c1,
             hook :=
               match e with
               | .messageEv _ (some d) =>
                   if s.chan.listeners.contains 0 then useWsListener s.hook d
                   else s.hook
               | _ => s.hook }
  | none => none

def sysRun (s : Sys) : List CEv → Option Sys
  | [] => some s
  | e :: rest =>
      match sysStep s e with
      | some s1 => sysRun s1 rest
      | none => none

/-- The event is a successfully parsed message tagged `telemetry` or `pong`. -/
def msgTP : CEv → Bool
  | .messageEv _ (some d) => tagIs d "telemetry" || tagIs d "pong"
  | _ => false

/-- The event does not unsubscribe the hook (listener 0). -/
def keepsHook : CEv → Bool
  | .unsubscribe l => !(l == 0)
  | _ => true

/-- Channel steps that do not unsubscribe listener 0 keep it subscribed. -/
theorem chanStep_keeps0 {w c1 : Chan} {e : CEv} (h : chanStep w e = some c1)
    (hk : keepsHook e = true) (h0 : (0 : Nat) ∈ w.listeners) :
    (0 : Nat) ∈ c1.listeners := by
  cases e with
  | connect =>
      simp only [chanStep] at h
      injection h with h
      subst h
      simpa using h0
  | disconnect =>
      rcases hws : w.ws with _ | sid <;>
        rcases hrt : w.reconnectTimeout with _ | hh <;>
          · simp only [chanStep, hws, hrt, closeSock_reconnectTimeout] at h
            injection h with h
            subst h
            simpa using h0
  | openEv sid =>
      simp only [chanStep] at h
      split at h
      case h_1 =>
        rcases hrt : w.reconnectTimeout with _ | hh <;>
          · simp only [hrt, setSock_reconnectTimeout] at h
            injection h with h
            subst h
            simpa using h0
      case h_2 => exact Option.noConfusion h
  | closeEv sid =>
      simp only [chanStep] at h
      split at h
      case h_1 => exact Option.noConfusion h
      case h_2 => exact Option.noConfusion h
      case h_3 =>
        split at h <;>
          · injection h with h
            subst h
            simpa using h0
  | errorEv sid =>
      simp only [chanStep] at h
      split at h <;> try exact Option.noConfusion h
      all_goals {
        rcases hws : w.ws with _ | cur <;>
          · simp only [hws] at h
            injection h with h
            subst h
            simpa using h0
      }
  | messageEv sid payload =>
      simp only [chanStep] at h
      split at h
      case h_1 =>
        cases payload with
        | none => injection h with h; subst h; exact h0
        | some d => injection h with h; subst h; exact h0
      case h_2 => exact Option.noConfusion h
  | reconFire hh =>
      simp only [chanStep] at h
      split at h
      · injection h with h
        subst h
        simpa using h0
      · exact Option.noConfusion h
  | subscribe l =>
      simp only [chanStep] at h
      injection h with h
      subst h
      split
      · exact h0
      · exact List.mem_append_left _ h0
  | unsubscribe l =>
      simp only [chanStep] at h
      injection h with h
      subst h
      simp only [keepsHook, Bool.not_eq_true'] at hk
      refine List.mem_filter.mpr ⟨h0, ?_⟩
      have hne : l ≠ 0 := by
        intro he
        subst he
        simp at hk
      simp [Nat.ne_of_lt]
      omega

/-- The hook callback turns `isConnected` on exactly for `telemetry` / `pong`
tags, and otherwise leaves it as it was. -/
theorem useWsListener_isConnected (st : UseWsState) (d : Json) :
    (useWsListener st d).isConnected
      = (st.isConnected || (tagIs d "telemetry" || tagIs d "pong")) := by
  unfold useWsListener
  by_cases h1 : tagIs d "telemetry" = true
  · simp [h1]
  · rw [Bool.not_eq_true] at h1
    by_cases h2 : tagIs d "pong" = true
    · simp [h1, h2]
    · rw [Bool.not_eq_true] at h2
      simp [h1, h2]

/-- Along any trace that never unsubscribes the hook, `isConnected` is true
iff the hook started connected or some successfully parsed `telemetry` /
`pong` message event occurred. -/
theorem isConnected_run :
    ∀ (evs : List CEv) (s v : Sys),
      evs.all keepsHook = true →
      (0 : Nat) ∈ s.chan.listeners →
      sysRun s evs = some v →
      (v.hook.isConnected = true ↔
        (s.hook.isConnected = true ∨ ∃ e ∈ evs, msgTP e = true)) := by
  intro evs
  induction evs with
  | nil =>
      intro s v _ _ h
      simp only [sysRun] at h
      injection h with h
      subst h
      simp
  | cons e rest ih =>
      intro s v hall h0 h
      simp only [List.all_cons, Bool.and_eq_true] at hall
      simp only [sysRun] at h
      split at h
      case h_2 => exact Option.noConfusion h
      case h_1 s1 hs1 =>
        simp only [sysStep] at hs1
        split at hs1
        case h_2 => exact Option.noConfusion hs1
        case h_1 c1 hc1 =>
          injection hs1 with hs1
          subst hs1
          have h01 : (0 : Nat) ∈ c1.listeners := chanStep_keeps0 hc1 hall.1 h0
          have hiter := ih _ v hall.2 h01 h
          cases e with
          | messageEv sid payload =>
              cases payload with
              | none =>
                  rw [hiter]
                  simp only [msgTP]
                  simp [List.mem_cons]
              | some d =>
                  have hcont : s.chan.listeners.contains 0 = true := by
                    simp only [List.contains, List.elem_iff]
                    exact h0
                  rw [hiter]
                  simp only [hcont, if_true]
                  rw [useWsListener_isConnected]
                  simp only [msgTP, Bool.or_eq_true]
                  constructor
                  · rintro ((hl | hl) | hl)
                    · exact Or.inl hl
                    · exact Or.inr ⟨CEv.messageEv sid (some d),
                        List.mem_cons_self _ _, by simp [msgTP, hl]⟩
                    · rcases hl with ⟨e2, he2, hm⟩
                      exact Or.inr ⟨e2, List.mem_cons_of_mem _ he2, hm⟩
                  · rintro (hl | ⟨e2, he2, hm⟩)
                    · exact Or.inl (Or.inl hl)
                    · rcases List.mem_cons.1 he2 with he2 | he2
                      · subst he2
                        simp only [msgTP, Bool.or_eq_true] at hm
                        exact Or.inl (Or.inr hm)
                      · exact Or.inr ⟨e2, he2, hm⟩
          | connect =>
              rw [hiter]
              simp [msgTP]
          | disconnect =>
              rw [hiter]
              simp [msgTP]
          | openEv sid =>
              rw [hiter]
              simp [msgTP]
          | closeEv sid =>
              rw [hiter]
              simp [msgTP]
          | errorEv sid =>
              rw [hiter]
              simp [msgTP]
          | reconFire hh =>
              rw [hiter]
              simp [msgTP]
          | subscribe l =>
              rw [hiter]
              simp [msgTP]
          | unsubscribe l =>
              rw [hiter]
              simp [msgTP]

/-- C9 (amended): for every trace of the combined system in which the hook
stays subscribed, the exposed `isConnected` is true iff at least one
successfully parsed `telemetry` or `pong` message has been received SINCE THE
HOOK MOUNTED — not since the last disconnect: `disconnect` events (or any
other event) never reset it, as `c9_counterexample` shows concretely. -/
theorem c9_isConnected_iff (evs : List CEv) (v : Sys)
    (hkeep : evs.all keepsHook = true) (hrun : sysRun sysInit evs = some v) :
    (v.hook.isConnected = true ↔ ∃ e ∈ evs, msgTP e = true) := by
  have h := isConnected_run evs sysInit v hkeep (by simp [sysInit, chanInit]) hrun
  simpa [sysInit] using h

/-- A well-formed telemetry frame, as in the C9 scenario. -/
def telemetryMsg : Json :=
  Json.obj [("type", Json.str "telemetry"),
            ("data", Json.obj
              [("cpu_usage", Json.num 42), ("memory_usage", Json.num 10),
               ("active_jobs", Json.num 1), ("queue_depth", Json.num 0),
               ("timestamp", Json.num 123)])]

/-- C9 counterexample trace: a telemetry message is received, then
`disconnect()` is called; no further message arrives. -/
def c9Trace : List CEv :=
  [.connect, .openEv 1, .messageEv 1 (some telemetryMsg), .disconnect]

/-- C9 counterexample: after `disconnect()`, with no new message having
arrived since, `isConnected` still reports `true` — the hook never sets it
back to `false` — refuting the claim that after a disconnect `isConnected`
no longer reports true until a new message arrives. -/
theorem c9_counterexample :
    (sysRun sysInit c9Trace).map (fun s => s.hook.isConnected) = some true := rfl

/-- Witness trace and final state for `c9_isConnected_iff`. -/
def c9wTrace : List CEv := [.connect, .openEv 1, .messageEv 1 (some telemetryMsg)]

def c9wFin : Sys :=
  { chan := { sockets := [(1, ReadyState.open_)], ws := some 1, listeners := [0],
              reconnectTimeout := none, isExplicitlyClosed := false,
              reconTimers := [], delivered := [(0, telemetryMsg)],
              parseErrors := 0, next := 2 },
    hook := { telemetry := getField telemetryMsg "data", isConnected := true } }

/-- Witness for `c9_isConnected_iff` on a concrete trace. -/
theorem c9_witness :
    c9wTrace.all keepsHook = true ∧ c9wFin.hook.isConnected = true :=
  ⟨rfl,
   (c9_isConnected_iff c9wTrace c9wFin rfl rfl).mpr
     ⟨CEv.messageEv 1 (some telemetryMsg),
      List.mem_cons_of_mem _ (List.mem_cons_of_mem _ (List.mem_cons_self _ _)),
      rfl⟩⟩

end Telemetry
